import Mathlib

/-!
Verification of the deployment-history dashboard aggregation logic
(assets/js/dashboard.js).

Records are deployment events; timestamps are modelled as natural numbers
counting milliseconds on a linear local clock (so the JS local calendar day
of a timestamp t is the index t / 86400000).  Locale-dependent formatting
(toLocaleDateString / toLocaleTimeString) is modelled by abstract functions
passed as parameters.  Fallible browser operations (fetch, JSON decoding)
are modelled by an explicit outcome type, and the thrown-exception control
flow of the init sequence by Except.
-/

/-- Milliseconds in one hour, the divisor used by formatTimeAgo. -/
def msPerHour : ℕ := 3600000

/-- Milliseconds in one day; a local calendar day is a block of this length. -/
def msPerDay : ℕ := 86400000

/-- Local calendar day index of a timestamp, modelling the day identity that
Date.toDateString exposes when it is used as a grouping key. -/
def localDay (t : ℕ) : ℕ := t / msPerDay

/-- One deployment record of the snapshot document (data model of the
dashboard): timestamp (parsed to a point in time), status, commit, user and
workflow url strings. -/
structure DeploymentRecord where
  timestamp : ℕ
  status : String
  commit : String
  user : String
  workflow_url : String
deriving DecidableEq, Repr, Inhabited

/-- The mutable state of the dashboard that the verified claims talk about:
the in-memory record sequence (this.deployments) and the innerHTML of the
deploymentsTableBody surface. -/
structure DashState where
  deployments : List DeploymentRecord
  tableBody : String
deriving DecidableEq, Repr, Inhabited

/-- Outcome of the fetch of data/deployments.json as seen by loadDeployments:
either the fetch itself throws (network failure), or a response arrives with
an ok flag and a body.  The body is none when response.json() throws
(malformed JSON), some none when the JSON object has no deployments field,
and some (some l) when the field is present with value l. -/
inductive FetchOutcome where
  | networkError : FetchOutcome
  | response : Bool → Option (Option (List DeploymentRecord)) → FetchOutcome
deriving DecidableEq, Repr

/-- loadDeployments: fetch data/deployments.json; on a non-ok response throw;
read data.deployments with an empty-array default; every thrown error is
caught and the sequence set to empty.  The table body is never touched. -/
def loadDeployments (f : FetchOutcome) (s : DashState) : DashState :=
  match f with
  | FetchOutcome.networkError => { s with deployments := [] }
  | FetchOutcome.response ok body =>
    if ok = false then { s with deployments := [] }
    else
      match body with
      | none => { s with deployments := [] }
      | some dep => { s with deployments := dep.getD [] }

/-- Failure cases of the load step as the spec enumerates them: network
failure, non-success transport result, malformed JSON, or an absent
deployments field. -/
def isLoadFailure : FetchOutcome → Bool
  | FetchOutcome.networkError => true
  | FetchOutcome.response ok body =>
    !ok || decide (body = none) || decide (body = some none)

/-- totalDeployments in updateStats: the length of the record sequence. -/
def totalDeployments (ds : List DeploymentRecord) : ℕ := ds.length

/-- successfulDeployments in updateStats: records whose status is exactly
the string success. -/
def successfulDeployments (ds : List DeploymentRecord) : ℕ :=
  (ds.filter (fun d => decide (d.status = "success"))).length

/-- successRate in updateStats: Math.round of the success fraction times 100
when the sequence is non-empty, and 0 otherwise.  Math.round on a
non-negative value is the round of Mathlib (floor of x + 1/2). -/
def successRate (ds : List DeploymentRecord) : ℤ :=
  if 0 < totalDeployments ds then
    round (((successfulDeployments ds : ℚ) / (totalDeployments ds : ℚ)) * 100)
  else 0

/-- uniqueDeployers in updateStats: the size of the Set built from the user
field of every record, i.e. the number of distinct user values. -/
def uniqueDeployers (ds : List DeploymentRecord) : ℕ :=
  (ds.map (fun d => d.user)).dedup.length

/-- formatTimeAgo: whole elapsed hours decide the phrase; under 1 hour a
fixed phrase, under 24 hours an hour count, otherwise a day count obtained
by dividing the hour count by 24, each pluralized exactly above 1. -/
def formatTimeAgo (now t : ℕ) : String :=
  let diffInHours := (now - t) / msPerHour
  if diffInHours < 1 then "Less than an hour ago"
  else if diffInHours < 24 then
    toString diffInHours ++ " hour" ++ (if diffInHours > 1 then "s" else "") ++ " ago"
  else
    let diffInDays := diffInHours / 24
    toString diffInDays ++ " day" ++ (if diffInDays > 1 then "s" else "") ++ " ago"

/-- lastDeployment in updateStats: formatTimeAgo of the timestamp of the
record at index 0, or the literal Never for an empty sequence. -/
def lastDeployment (now : ℕ) (ds : List DeploymentRecord) : String :=
  match ds with
  | [] => "Never"
  | d :: _ => formatTimeAgo now d.timestamp

/-- recentDeployments in createTrendChart: records whose timestamp is at or
after the instant thirty days before now.  On natural numbers the JS
comparison timestamp >= now - 30 days is exactly now <= timestamp + 30 days
(also when now is within the first thirty days of the clock, where the JS
cutoff is before time zero and every record passes). -/
def recentDeployments (now : ℕ) (ds : List DeploymentRecord) : List DeploymentRecord :=
  ds.filter (fun d => decide (now ≤ d.timestamp + 30 * msPerDay))

/-- deploymentsByDate in createTrendChart: how many windowed records fall on
a given local calendar day (the grouping dictionary looked up with default
0). -/
def deploymentsByDate (now : ℕ) (ds : List DeploymentRecord) (day : ℕ) : ℕ :=
  ((recentDeployments now ds).filter (fun r => decide (localDay r.timestamp = day))).length

/-- The data array of createTrendChart: the loop runs i = 29 down to 0 and
pushes the count for the calendar day of the instant i days before now, so
the entry at position j is the count for the day of now - (29 - j) days. -/
def trendData (now : ℕ) (ds : List DeploymentRecord) : List ℕ :=
  (List.range 30).map (fun j => deploymentsByDate now ds (localDay (now - (29 - j) * msPerDay)))

/-- statusCounts in createStatusChart: the success, failure and cancelled
bucket sizes over the full record sequence, by exact string match. -/
def statusCounts (ds : List DeploymentRecord) : ℕ × ℕ × ℕ :=
  ((ds.filter (fun d => decide (d.status = "success"))).length,
   (ds.filter (fun d => decide (d.status = "failure"))).length,
   (ds.filter (fun d => decide (d.status = "cancelled"))).length)

/-- JS String.prototype.substring(0, n): the first n characters of a string,
the whole string when it is shorter than n. -/
def jsSubstring (s : String) (n : ℕ) : String := String.mk (s.data.take n)

/-- formatDate: locale date string, a space, locale time string; the two
locale formatters are abstract parameters of the model. -/
def formatDate (fmtD fmtT : ℕ → String) (t : ℕ) : String :=
  fmtD t ++ " " ++ fmtT t

/-- The row template of updateTable, one tr per record: formatted date and
time, the status string twice (styling key and badge text), the first seven
characters of the commit, the user, and the workflow url as a link. -/
def renderRow (fmtD fmtT : ℕ → String) (d : DeploymentRecord) : String :=
  "<tr><td>" ++ formatDate fmtD fmtT d.timestamp ++
  "</td><td><span class=\"status-badge status-" ++ d.status ++ "\">" ++ d.status ++
  "</span></td><td><code class=\"commit-hash\">" ++ jsSubstring d.commit 7 ++
  "</code></td><td>" ++ d.user ++
  "</td><td><a href=\"" ++ d.workflow_url ++
  "\" class=\"workflow-link\" target=\"_blank\">View</a></td></tr>"

/-- The placeholder row updateTable writes for an empty sequence. -/
def noDataRow : String :=
  "<tr><td colspan=\"5\" class=\"loading\">No deployment data available</td></tr>"

/-- updateTable: for an empty sequence write the placeholder row; otherwise
render the first twenty records (slice 0 20) in order and join the rows. -/
def updateTable (fmtD fmtT : ℕ → String) (s : DashState) : DashState :=
  if s.deployments.length = 0 then { s with tableBody := noDataRow }
  else
    { s with tableBody :=
        String.join ((s.deployments.take 20).map (renderRow fmtD fmtT)) }

/-- showError: replace the table body with a single row carrying the literal
prefix Error: followed by the given message. -/
def showError (message : String) (s : DashState) : DashState :=
  { s with tableBody :=
      "<tr><td colspan=\"5\" class=\"loading\">Error: " ++ message ++ "</td></tr>" }

/-- The init sequence after construction: the body of the try block (load
with its internal fallback, then the compute and render steps) either ends
in a new state or throws, carrying the message of the exception and the
state at the throw site; the catch block logs and calls showError with the
fixed message Failed to load deployment data.  No exception escapes. -/
def init (body : DashState → Except (String × DashState) DashState) (s : DashState) : DashState :=
  match body s with
  | Except.ok s2 => s2
  | Except.error e => showError "Failed to load deployment data" e.2

/-- Sample record used by the concrete evaluation theorems: a successful
deployment by alice at time zero. -/
def recA : DeploymentRecord :=
  { timestamp := 0, status := "success", commit := "abcdef1234", user := "alice",
    workflow_url := "https://example.com/a" }

/-- Sample record: a failed deployment by bob. -/
def recB : DeploymentRecord :=
  { timestamp := 1, status := "failure", commit := "1234567890", user := "bob",
    workflow_url := "https://example.com/b" }

/-- Sample record on local day 30 of the model clock. -/
def recC : DeploymentRecord :=
  { timestamp := 2592000000, status := "success", commit := "aaaaaaa", user := "alice",
    workflow_url := "https://example.com/c" }

/-- Sample record one millisecond later on the same local day as recC. -/
def recD : DeploymentRecord :=
  { timestamp := 2592000001, status := "cancelled", commit := "bbbbbbb", user := "dave",
    workflow_url := "https://example.com/d" }

/-- Sample record whose commit identifier has fewer than seven characters. -/
def recShort : DeploymentRecord :=
  { timestamp := 5, status := "success", commit := "abc", user := "carol",
    workflow_url := "https://example.com/e" }

/-- Sample dashboard state with a previous snapshot loaded and some table
content already rendered. -/
def stateWithData : DashState := { deployments := [recA], tableBody := "old" }

/-- Sample empty dashboard state, as right after construction. -/
def stateEmpty : DashState := { deployments := [], tableBody := "" }

/-- Sample try-block body that throws an exception whose message is boom,
leaving the state untouched at the throw site. -/
def throwBoom : DashState → Except (String × DashState) DashState :=
  fun s => Except.error ("boom", s)

/-- Sample locale date formatter for the concrete evaluation theorems. -/
def dFmt : ℕ → String := fun _ => "1/1/2024"

/-- Sample locale time formatter for the concrete evaluation theorems. -/
def tFmt : ℕ → String := fun _ => "10:00:00 AM"

/-- Helper: subtracting i whole days from an instant shifts its local
calendar day index down by i, whenever that many days fit before the
instant. -/
theorem localDay_sub (now i : ℕ) (h : i * msPerDay ≤ now) :
    localDay (now - i * msPerDay) = localDay now - i := by
  simp only [localDay, msPerDay] at *
  omega

/-- Helper: the entry at position j of the trend data array is the windowed
count for the calendar day of the instant 29 - j days before now. -/
theorem trendData_getD (now : ℕ) (ds : List DeploymentRecord) (j : ℕ) (hj : j < 30) :
    (trendData now ds).getD j 0 =
      deploymentsByDate now ds (localDay (now - (29 - j) * msPerDay)) := by
  simp [trendData, List.getD_eq_getElem?_getD, List.getElem?_map, List.getElem?_range hj]

/-- Helper: the three status buckets together with the unrecognized records
partition the sequence, so their sizes sum to the total length. -/
theorem statusCounts_partition (ds : List DeploymentRecord) :
    (statusCounts ds).1 + (statusCounts ds).2.1 + (statusCounts ds).2.2 +
      (ds.filter (fun d =>
        decide ¬(d.status = "success" ∨ d.status = "failure" ∨ d.status = "cancelled"))).length
      = totalDeployments ds := by
  induction ds with
  | nil => rfl
  | cons a l ih =>
    simp only [statusCounts, totalDeployments, List.filter_cons, List.length_cons] at *
    by_cases hs : a.status = "success" <;>
      by_cases hf : a.status = "failure" <;>
        by_cases hc : a.status = "cancelled" <;>
          simp_all <;> omega

/-- Claim C1: for every record sequence, updateStats produces a success rate
equal to round(100 times successCount over total), where successCount counts
records with status exactly success; the rate is 0 when the total is 0, and
for every non-empty sequence it is an integer (of type Int by construction)
in the interval from 0 to 100. -/
theorem successRate_spec (ds : List DeploymentRecord) :
    successRate ds =
      (if totalDeployments ds = 0 then 0
       else round ((100 * (successfulDeployments ds : ℚ)) / (totalDeployments ds : ℚ))) ∧
    (ds ≠ [] → 0 ≤ successRate ds ∧ successRate ds ≤ 100) := by
  constructor
  · unfold successRate
    rcases Nat.eq_zero_or_pos (totalDeployments ds) with h0 | hpos
    · simp [h0]
    · rw [if_pos hpos, if_neg (by omega)]
      congr 1
      ring
  · intro hne
    have hpos : 0 < totalDeployments ds := by
      cases ds with
      | nil => exact absurd rfl hne
      | cons a l => simp [totalDeployments]
    have hle : successfulDeployments ds ≤ totalDeployments ds :=
      List.length_filter_le _ _
    have htQ : (0 : ℚ) < (totalDeployments ds : ℚ) := by exact_mod_cast hpos
    set q : ℚ := ((successfulDeployments ds : ℚ) / (totalDeployments ds : ℚ)) * 100 with hq
    have hq0 : 0 ≤ q := by
      apply mul_nonneg _ (by norm_num)
      exact div_nonneg (by positivity) (le_of_lt htQ)
    have hq100 : q ≤ 100 := by
      have h1 : (successfulDeployments ds : ℚ) / (totalDeployments ds : ℚ) ≤ 1 :=
        (div_le_one htQ).mpr (by exact_mod_cast hle)
      nlinarith
    unfold successRate
    rw [if_pos hpos, ← hq]
    constructor
    · rw [round_eq]
      exact Int.le_floor.mpr (by push_cast; linarith)
    · rw [round_eq]
      have : ⌊q + 1 / 2⌋ < 101 := Int.floor_lt.mpr (by push_cast; linarith)
      omega

/-- Witness for claim C1 at a concrete one-record sequence. -/
theorem successRate_spec_witness :
    ([recA] : List DeploymentRecord) ≠ [] ∧
    (0 ≤ successRate [recA] ∧ successRate [recA] ≤ 100) :=
  ⟨by decide, (successRate_spec [recA]).2 (by decide)⟩

/-- Claim C2: the trend series has exactly 30 points; point j is the count
for the calendar day 29 - j days before today (so oldest first and today
last, one point per calendar day of the 30 days ending today); and a record
whose timestamp is older than 30 days contributes to none of the counts. -/
theorem trendData_spec (now : ℕ) (ds : List DeploymentRecord) (h30 : 30 * msPerDay ≤ now) :
    (trendData now ds).length = 30 ∧
    (∀ j, j < 30 → (trendData now ds).getD j 0 =
      deploymentsByDate now ds (localDay now - (29 - j))) ∧
    (∀ r : DeploymentRecord, r.timestamp + 30 * msPerDay < now →
      trendData now (r :: ds) = trendData now ds) := by
  refine ⟨by simp [trendData], ?_, ?_⟩
  · intro j hj
    rw [trendData_getD now ds j hj,
      localDay_sub now (29 - j) (by simp only [msPerDay] at h30 ⊢; omega)]
  · intro r hr
    have hfil : recentDeployments now (r :: ds) = recentDeployments now ds := by
      unfold recentDeployments
      rw [List.filter_cons_of_neg]
      simp only [decide_eq_true_eq]
      omega
    simp only [trendData, deploymentsByDate, hfil]

/-- Witness for claim C2 at a concrete instant thirty days into the clock. -/
theorem trendData_spec_witness :
    30 * msPerDay ≤ 2592000000 ∧ (trendData 2592000000 [recA]).length = 30 :=
  ⟨by decide, (trendData_spec 2592000000 [recA] (by decide)).1⟩

/-- Counterexample for claim C3 as stated: when the try-block body throws an
exception with message boom, the table body does not read Error: boom; the
catch block of init always renders the fixed message instead of the message
of the thrown failure. -/
theorem init_message_counterexample :
    throwBoom stateEmpty = Except.error ("boom", stateEmpty) ∧
    (init throwBoom stateEmpty).tableBody ≠
      "<tr><td colspan=\"5\" class=\"loading\">Error: boom</td></tr>" :=
  ⟨rfl, by decide⟩

/-- Claim C3 amended: for every exception thrown during the init sequence,
the table body is replaced with a single row consisting of the literal
prefix Error: followed by the fixed text Failed to load deployment data
(the message of the thrown failure itself is only logged), and the
exception is not propagated further: init is a total function on states. -/
theorem init_catch (body : DashState → Except (String × DashState) DashState)
    (s : DashState) (msg : String) (s2 : DashState)
    (h : body s = Except.error (msg, s2)) :
    init body s = showError "Failed to load deployment data" s2 ∧
    (init body s).tableBody =
      "<tr><td colspan=\"5\" class=\"loading\">Error: Failed to load deployment data</td></tr>" := by
  simp [init, h, showError]

/-- Witness for the amended claim C3 at a concrete throwing body. -/
theorem init_catch_witness :
    throwBoom stateEmpty = Except.error ("boom", stateEmpty) ∧
    (init throwBoom stateEmpty = showError "Failed to load deployment data" stateEmpty ∧
     (init throwBoom stateEmpty).tableBody =
       "<tr><td colspan=\"5\" class=\"loading\">Error: Failed to load deployment data</td></tr>") :=
  ⟨rfl, init_catch throwBoom stateEmpty "boom" stateEmpty rfl⟩

/-- Claim C4: on every failure of the load step (network failure, non-ok
response, malformed JSON, or an absent deployments field) the in-memory
sequence becomes empty, the table body is untouched (no user-visible error
banner), and the resulting sequence never depends on the previous snapshot
(complete replacement, never a merge); no error propagates, as
loadDeployments is a total function on states. -/
theorem loadDeployments_failure (f : FetchOutcome) (s : DashState)
    (h : isLoadFailure f = true) :
    (loadDeployments f s).deployments = [] ∧
    (loadDeployments f s).tableBody = s.tableBody ∧
    ∀ prev : List DeploymentRecord,
      (loadDeployments f { s with deployments := prev }).deployments =
        (loadDeployments f s).deployments := by
  rcases f with _ | ⟨ok, body⟩
  · simp [loadDeployments]
  · cases ok
    · simp [loadDeployments]
    · rcases body with _ | (_ | l)
      · simp [loadDeployments]
      · simp [loadDeployments]
      · simp [isLoadFailure] at h

/-- Witness for claim C4 at a concrete network failure over a state with a
previous snapshot. -/
theorem loadDeployments_failure_witness :
    isLoadFailure FetchOutcome.networkError = true ∧
    (loadDeployments FetchOutcome.networkError stateWithData).deployments = [] :=
  ⟨rfl, (loadDeployments_failure FetchOutcome.networkError stateWithData rfl).1⟩

/-- Claim C5: the last-deployment text is the literal Never for the empty
sequence; otherwise it is derived from the timestamp of the record at index
0: elapsed under one hour gives the fixed phrase, under 24 hours an hour
count pluralized exactly when it exceeds 1, and otherwise a day count equal
to the elapsed whole hours divided by 24, pluralized exactly when it
exceeds 1. -/
theorem lastDeployment_spec (now : ℕ) (d : DeploymentRecord) (rest : List DeploymentRecord) :
    lastDeployment now [] = "Never" ∧
    (now - d.timestamp < msPerHour →
      lastDeployment now (d :: rest) = "Less than an hour ago") ∧
    (msPerHour ≤ now - d.timestamp → now - d.timestamp < 24 * msPerHour →
      lastDeployment now (d :: rest) =
        toString ((now - d.timestamp) / msPerHour) ++ " hour" ++
        (if 1 < (now - d.timestamp) / msPerHour then "s" else "") ++ " ago") ∧
    (24 * msPerHour ≤ now - d.timestamp →
      lastDeployment now (d :: rest) =
        toString ((now - d.timestamp) / msPerHour / 24) ++ " day" ++
        (if 1 < (now - d.timestamp) / msPerHour / 24 then "s" else "") ++ " ago") := by
  refine ⟨rfl, ?_, ?_, ?_⟩
  · intro h
    have h1 : (now - d.timestamp) / msPerHour < 1 := by
      simp only [msPerHour] at h ⊢; omega
    simp [lastDeployment, formatTimeAgo, h1]
  · intro h h24
    have h1 : ¬ ((now - d.timestamp) / msPerHour < 1) := by
      simp only [msPerHour] at h ⊢; omega
    have h2 : (now - d.timestamp) / msPerHour < 24 := by
      simp only [msPerHour] at h24 ⊢; omega
    simp [lastDeployment, formatTimeAgo, h1, h2, gt_iff_lt]
  · intro h
    have h1 : ¬ ((now - d.timestamp) / msPerHour < 1) := by
      simp only [msPerHour] at h ⊢; omega
    have h2 : ¬ ((now - d.timestamp) / msPerHour < 24) := by
      simp only [msPerHour] at h ⊢; omega
    simp [lastDeployment, formatTimeAgo, h1, h2, gt_iff_lt]

/-- Witness for claim C5: a record thirty minutes old yields the fixed
under-an-hour phrase. -/
theorem lastDeployment_spec_witness :
    (1800000 : ℕ) - recA.timestamp < msPerHour ∧
    lastDeployment 1800000 [recA] = "Less than an hour ago" :=
  ⟨by decide, (lastDeployment_spec 1800000 recA []).2.1 (by decide)⟩

/-- Claim C6: two records whose timestamps fall on the same local calendar
day lying among the 30 label days increment the same trend bucket (the one
whose label day is their shared calendar day) regardless of time of day, so
that bucket counts at least 2. -/
theorem sameDay_sameBucket (now : ℕ) (r₁ r₂ : DeploymentRecord) (ds : List DeploymentRecord)
    (h30 : 30 * msPerDay ≤ now)
    (hday : localDay r₁.timestamp = localDay r₂.timestamp)
    (hlo : localDay now - 29 ≤ localDay r₁.timestamp)
    (hhi : localDay r₁.timestamp ≤ localDay now) :
    ∃ j, j < 30 ∧
      localDay (now - (29 - j) * msPerDay) = localDay r₁.timestamp ∧
      2 ≤ (trendData now (r₁ :: r₂ :: ds)).getD j 0 := by
  have hpass₁ : now ≤ r₁.timestamp + 30 * msPerDay := by
    simp only [localDay, msPerDay] at hlo hhi h30 ⊢
    omega
  have hpass₂ : now ≤ r₂.timestamp + 30 * msPerDay := by
    simp only [localDay, msPerDay] at hlo hhi hday h30 ⊢
    omega
  have hrecent : recentDeployments now (r₁ :: r₂ :: ds) =
      r₁ :: r₂ :: recentDeployments now ds := by
    unfold recentDeployments
    rw [List.filter_cons_of_pos (by simpa using hpass₁),
      List.filter_cons_of_pos (by simpa using hpass₂)]
  have hcount : 2 ≤ deploymentsByDate now (r₁ :: r₂ :: ds) (localDay r₁.timestamp) := by
    unfold deploymentsByDate
    rw [hrecent, List.filter_cons_of_pos (by simp),
      List.filter_cons_of_pos (by simp [hday.symm])]
    simp only [List.length_cons]
    omega
  have hdayeq : localDay (now -
      (29 - (29 - (localDay now - localDay r₁.timestamp))) * msPerDay) =
      localDay r₁.timestamp := by
    rw [localDay_sub now _ (by simp only [msPerDay] at h30 ⊢; omega)]
    omega
  refine ⟨29 - (localDay now - localDay r₁.timestamp), by omega, hdayeq, ?_⟩
  rw [trendData_getD now _ _ (by omega), hdayeq]
  exact hcount

/-- Witness for claim C6 at two concrete records one millisecond apart on
local day 30. -/
theorem sameDay_sameBucket_witness :
    localDay recC.timestamp = localDay recD.timestamp ∧
    ∃ j, j < 30 ∧
      localDay (2592000000 - (29 - j) * msPerDay) = localDay recC.timestamp ∧
      2 ≤ (trendData 2592000000 (recC :: recD :: [])).getD j 0 :=
  ⟨by decide,
    sameDay_sameBucket 2592000000 recC recD [] (by decide) (by decide) (by decide) (by decide)⟩

/-- Claim C7: the three status buckets count by exact string match, their
sum never exceeds the total record count, and it equals the total exactly
when every status in the sequence is one of the three recognized values. -/
theorem statusCounts_spec (ds : List DeploymentRecord) :
    (statusCounts ds).1 + (statusCounts ds).2.1 + (statusCounts ds).2.2 ≤ totalDeployments ds ∧
    ((statusCounts ds).1 + (statusCounts ds).2.1 + (statusCounts ds).2.2 = totalDeployments ds ↔
      ∀ d ∈ ds, d.status = "success" ∨ d.status = "failure" ∨ d.status = "cancelled") := by
  have hpart := statusCounts_partition ds
  refine ⟨by omega, ?_, ?_⟩
  · intro he d hd
    have h0 : (ds.filter (fun d =>
        decide ¬(d.status = "success" ∨ d.status = "failure" ∨ d.status = "cancelled"))).length = 0 := by
      omega
    rw [List.length_eq_zero, List.filter_eq_nil_iff] at h0
    have hx := h0 d hd
    simp only [decide_eq_true_eq, not_not] at hx
    exact hx
  · intro hall
    have h0 : ds.filter (fun d =>
        decide ¬(d.status = "success" ∨ d.status = "failure" ∨ d.status = "cancelled")) = [] := by
      rw [List.filter_eq_nil_iff]
      intro a ha
      simp only [decide_eq_true_eq, not_not]
      exact hall a ha
    rw [h0] at hpart
    simpa using hpart

/-- Witness for claim C7 at a concrete two-record sequence. -/
theorem statusCounts_spec_witness :
    (statusCounts [recA, recB]).1 + (statusCounts [recA, recB]).2.1 +
      (statusCounts [recA, recB]).2.2 ≤ totalDeployments [recA, recB] :=
  (statusCounts_spec [recA, recB]).1

/-- Claim C8: for an empty sequence updateTable renders the single literal
placeholder row; for a non-empty sequence the table body is the join of the
rendered rows of exactly the first min(20, length) records, in order, each
row carrying the formatted date and time, the exact status string, the
seven-character commit prefix, the user and the workflow url. -/
theorem updateTable_spec (fmtD fmtT : ℕ → String) (s : DashState) :
    (s.deployments = [] → (updateTable fmtD fmtT s).tableBody = noDataRow) ∧
    (s.deployments ≠ [] →
      (updateTable fmtD fmtT s).tableBody =
        String.join ((s.deployments.take 20).map (renderRow fmtD fmtT)) ∧
      ((s.deployments.take 20).map (renderRow fmtD fmtT)).length =
        min 20 s.deployments.length ∧
      ∀ j, j < min 20 s.deployments.length →
        ((s.deployments.take 20).map (renderRow fmtD fmtT)).getD j "" =
          renderRow fmtD fmtT (s.deployments.getD j default)) := by
  constructor
  · intro h
    simp [updateTable, h]
  · intro h
    have hlen : ¬ s.deployments.length = 0 := by
      simpa [List.length_eq_zero] using h
    refine ⟨by simp [updateTable, hlen], by simp [List.length_take, Nat.min_comm], ?_⟩
    intro j hj
    have hj20 : j < 20 := lt_of_lt_of_le hj (Nat.min_le_left _ _)
    have hjlen : j < s.deployments.length := lt_of_lt_of_le hj (Nat.min_le_right _ _)
    simp [List.getD_eq_getElem?_getD, List.getElem?_map,
      List.getElem?_take_of_lt hj20, List.getElem?_eq_getElem hjlen]

/-- Witness for claim C8 at a concrete non-empty state. -/
theorem updateTable_spec_witness :
    stateWithData.deployments ≠ [] ∧
    (updateTable dFmt tFmt stateWithData).tableBody =
      String.join ((stateWithData.deployments.take 20).map (renderRow dFmt tFmt)) :=
  ⟨by decide, ((updateTable_spec dFmt tFmt stateWithData).2 (by decide)).1⟩

/-- Claim C9: the unique deployer count equals the cardinality of the set
of user values over the full sequence, and it is invariant under every
permutation of the sequence. -/
theorem uniqueDeployers_spec (ds : List DeploymentRecord) :
    uniqueDeployers ds = (ds.map (fun d => d.user)).toFinset.card ∧
    ∀ ds2 : List DeploymentRecord, ds.Perm ds2 → uniqueDeployers ds = uniqueDeployers ds2 := by
  constructor
  · rw [List.card_toFinset]
    rfl
  · intro ds2 hp
    unfold uniqueDeployers
    rw [← List.card_toFinset, ← List.card_toFinset,
      List.toFinset_eq_of_perm _ _ (hp.map _)]

/-- Witness for claim C9 at a concrete transposition of two records. -/
theorem uniqueDeployers_spec_witness :
    ([recA, recB] : List DeploymentRecord).Perm [recB, recA] ∧
    uniqueDeployers [recA, recB] = uniqueDeployers [recB, recA] :=
  ⟨List.Perm.swap recB recA [],
    (uniqueDeployers_spec [recA, recB]).2 [recB, recA] (List.Perm.swap recB recA [])⟩

/-- Claim C10: taking the seven-character commit prefix never fails; on a
commit identifier shorter than seven characters the table projection
displays the entire commit string unchanged. -/
theorem jsSubstring_short (d : DeploymentRecord) (h : d.commit.length < 7) :
    jsSubstring d.commit 7 = d.commit := by
  unfold jsSubstring
  rw [List.take_of_length_le (by exact Nat.le_of_lt h)]

/-- Witness for claim C10 at a concrete record with a three-character
commit identifier. -/
theorem jsSubstring_short_witness :
    recShort.commit.length < 7 ∧ jsSubstring recShort.commit 7 = recShort.commit :=
  ⟨by decide, jsSubstring_short recShort (by decide)⟩
